import Mathlib

/-!
Verification of the localdb-mcp database access layer.

Go strings are modelled as `List Char`; Go maps whose keys are iterated in
an arbitrary order are modelled as association lists (one possible
iteration order).  Backend round trips (queries, statement execution) are
modelled as oracle functions supplied as arguments, so that a theorem can
quantify over every possible backend behaviour and observe which
statements, if any, were sent to the backend.
-/

namespace LocalDbMcp

/-- Go `\w` word characters, as used by the word-boundary `\b` assertion in
`internal/server/query.go`: ASCII letters, digits and underscore. -/
def isWordChar (c : Char) : Bool :=
  c.isAlphanum || c == '_'

/-- Character set trimmed by Go `strings.TrimSpace` (`unicode.IsSpace`):
ASCII whitespace plus NEL, NBSP and the Unicode space separators. -/
def goIsSpace (c : Char) : Bool :=
  c == ' ' || c == '\t' || c == '\n' || c == Char.ofNat 11 || c == Char.ofNat 12 ||
  c == '\r' || c == Char.ofNat 0x85 || c == Char.ofNat 0xA0 || c == Char.ofNat 0x1680 ||
  (decide (0x2000 ≤ c.toNat) && decide (c.toNat ≤ 0x200A)) ||
  c == Char.ofNat 0x2028 || c == Char.ofNat 0x2029 || c == Char.ofNat 0x202F ||
  c == Char.ofNat 0x205F || c == Char.ofNat 0x3000

/-- Go `strings.TrimSpace`: drop whitespace from both ends. -/
def trimSpace (s : List Char) : List Char :=
  ((s.dropWhile goIsSpace).reverse.dropWhile goIsSpace).reverse

/-- Embeds the regex `--[^\n]*` replaced by a single space
(`sqlLineComment.ReplaceAllString(sql, " ")` in `query.go`).  The flag
records whether the scanner is inside a line comment; the terminating
newline is kept, exactly as the regex leaves it. -/
def stripLineAux : Bool → List Char → List Char
  | _, [] => []
  | true, c :: rest =>
    if c = '\n' then c :: stripLineAux false rest else stripLineAux true rest
  | false, '-' :: '-' :: rest => ' ' :: stripLineAux true rest
  | false, c :: rest => c :: stripLineAux false rest

/-- Replace every line comment `--…` (up to but excluding the newline) with
one space. -/
def stripLineComments (s : List Char) : List Char :=
  stripLineAux false s

/-- Does the list contain the two-character close marker of a block
comment? -/
def hasBlockClose : List Char → Bool
  | [] => false
  | '*' :: '/' :: _ => true
  | _ :: rest => hasBlockClose rest

/-- Suffix after the first block-comment close marker. -/
def dropToBlockClose : List Char → List Char
  | [] => []
  | '*' :: '/' :: rest => rest
  | _ :: rest => dropToBlockClose rest

/-- Embeds the lazy regex `/\*[\s\S]*?\*/` replaced by a single space
(`sqlBlockComment.ReplaceAllString` in `query.go`): an opened block comment
extends to the nearest close marker; an opener with no close marker is not
a match and the text is left unchanged.  Fueled to make the recursion
structural; the wrapper supplies fuel `s.length`, which is always enough. -/
def stripBlockFuel : Nat → List Char → List Char
  | 0, s => s
  | _ + 1, [] => []
  | fuel + 1, c :: rest =>
    match c, rest with
    | '/', '*' :: rest2 =>
      if hasBlockClose rest2 then ' ' :: stripBlockFuel fuel (dropToBlockClose rest2)
      else '/' :: '*' :: rest2
    | _, _ => c :: stripBlockFuel fuel rest

/-- Replace every block comment with one space. -/
def stripBlockComments (s : List Char) : List Char :=
  stripBlockFuel s.length s

/-- The fixed forbidden-keyword list of `query.go`, in source order. -/
def forbiddenSQLWords : List (List Char) :=
  ["INSERT", "UPDATE", "DELETE", "DROP", "CREATE", "ALTER", "TRUNCATE",
   "GRANT", "REVOKE", "EXEC", "EXECUTE", "MERGE", "REPLACE"].map String.toList

/-- Case-insensitive prefix match of a keyword (given in upper case)
against the text; returns the remainder after the keyword on success. -/
def matchKeywordCI : List Char → List Char → Option (List Char)
  | [], s => some s
  | _ :: _, [] => none
  | k :: ks, c :: cs => if Char.toUpper c = k then matchKeywordCI ks cs else none

/-- Word-boundary condition to the right of a match: end of text or a
non-word character. -/
def boundaryRightB : List Char → Bool
  | [] => true
  | q :: _ => !isWordChar q

/-- Word-boundary condition to the left of a match, given the character
just before the match position (none at the start of the text). -/
def boundaryLeftB : Option Char → Bool
  | none => true
  | some p => !isWordChar p

/-- Does the keyword match at the head of the text, with a word boundary
after it? -/
def keywordAt (kw s : List Char) : Bool :=
  match matchKeywordCI kw s with
  | some rest => boundaryRightB rest
  | none => false

/-- First forbidden keyword (in source order) matching at the head of the
text — the alternation order of the Go regex. -/
def findForbidden (s : List Char) : Option (List Char) :=
  forbiddenSQLWords.find? (fun kw => keywordAt kw s)

/-- Embeds `forbiddenWordRe.FindStringIndex`: scan left to right; at each
position with a word boundary on the left, try the alternatives in order;
return the first (leftmost) whole-word forbidden keyword.  `prev` is the
character just before the current position. -/
def scanForbidden : Option Char → List Char → Option (List Char)
  | _, [] => none
  | prev, c :: cs =>
    if boundaryLeftB prev then
      match findForbidden (c :: cs) with
      | some kw => some kw
      | none => scanForbidden (some c) cs
    else scanForbidden (some c) cs

/-- Result of `ValidateReadOnlySQL`: success, the empty-statement error, or
the not-read-only error carrying the (upper-cased) offending keyword. -/
inductive SQLCheck where
  | ok : SQLCheck
  | emptyStatement : SQLCheck
  | notReadOnly (word : List Char) : SQLCheck
deriving DecidableEq, Repr

/-- The input after comment stripping and trimming, in source order: line
comments first, then block comments, then `TrimSpace`. -/
def cleanedSQL (s : List Char) : List Char :=
  trimSpace (stripBlockComments (stripLineComments s))

/-- Embeds `ValidateReadOnlySQL` of `internal/server/query.go`. -/
def ValidateReadOnlySQL (s : List Char) : SQLCheck :=
  let cleaned := cleanedSQL s
  if cleaned = [] then .emptyStatement
  else
    match scanForbidden none cleaned with
    | some w => .notReadOnly w
    | none => .ok

/-- Declarative reading of the spec sentence: the keyword occurs in the
text as a case-insensitive whole word. -/
def occursAsWord (kw s : List Char) : Prop :=
  ∃ pre mid post, s = pre ++ mid ++ post ∧ mid.map Char.toUpper = kw ∧
    boundaryLeftB pre.getLast? = true ∧ boundaryRightB post = true

/-!
Placeholder translation (`dollarPlaceholder = regexp.MustCompile` of a
dollar sign followed by one or more digits, in the SQL Server driver file,
shared by the SQLite and MySQL drivers).
-/

/-- Embeds `dollarPlaceholder.ReplaceAllString(s, tmpl)`: scan left to
right; each dollar sign followed by a maximal nonempty digit run is
replaced by `repl` applied to the digit run; everything else is copied.
Fueled to make the recursion structural; the wrapper supplies fuel
`s.length`, which is always enough. -/
def convertNumRun (repl : List Char → List Char) : Nat → List Char → List Char
  | 0, s => s
  | _ + 1, [] => []
  | fuel + 1, c :: rest =>
    if c = '$' ∧ rest.takeWhile Char.isDigit ≠ [] then
      repl (rest.takeWhile Char.isDigit) ++ convertNumRun repl fuel (rest.dropWhile Char.isDigit)
    else
      c :: convertNumRun repl fuel rest

/-- Replace every `$digits` marker in the text using `repl`. -/
def replaceDollarMarkers (repl : List Char → List Char) (s : List Char) : List Char :=
  convertNumRun repl s.length s

/-- `convertPlaceholdersToSQLite`: replacement template `?${1}`. -/
def convertPlaceholdersToSQLite (s : List Char) : List Char :=
  replaceDollarMarkers (fun ds => '?' :: ds) s

/-- `convertPlaceholdersToMSSQL`: replacement template `@p${1}`. -/
def convertPlaceholdersToMSSQL (s : List Char) : List Char :=
  replaceDollarMarkers (fun ds => '@' :: 'p' :: ds) s

/-- `convertPlaceholdersToMySQL`: replacement template `?` (order of the
markers is preserved by the left-to-right scan; the numbers are dropped). -/
def convertPlaceholdersToMySQL (s : List Char) : List Char :=
  replaceDollarMarkers (fun _ => ['?']) s

/-- `PostgresDriver.RunReadOnlyQuery` passes its SQL text to `conn.Query`
unchanged — PostgreSQL natively uses `$n` placeholders, so there is no
conversion function in the PostgreSQL driver. -/
def postgresQueryText (s : List Char) : List Char := s

/-- No dollar sign immediately followed by a digit anywhere in the text
(the invariant that makes the replacement idempotent). -/
def noDollarDigit : List Char → Bool
  | [] => true
  | c :: rest =>
    (!(c == '$') || (match rest with | [] => true | d :: _ => !d.isDigit)) &&
      noDollarDigit rest

/-!
Identifier quoting.
-/

/-- Double every occurrence of the delimiter `d` (models
`strings.NewReplacer` with a single one-character rule). -/
def escDouble (d : Char) : List Char → List Char
  | [] => []
  | c :: rest => if c = d then d :: d :: escDouble d rest else c :: escDouble d rest

/-- The backtick character (MySQL identifier delimiter). -/
def backtickChar : Char := Char.ofNat 96

/-- `quoteSQLiteIdentifier`: wrap in double quotes, doubling interior ones. -/
def quoteSQLiteIdentifier (name : List Char) : List Char :=
  '"' :: escDouble '"' name ++ ['"']

/-- `quoteMySQLIdentifier`: wrap in backticks, doubling interior ones. -/
def quoteMySQLIdentifier (name : List Char) : List Char :=
  backtickChar :: escDouble backtickChar name ++ [backtickChar]

/-- `quoteMSSQLIdentifier`: wrap in square brackets, doubling interior
closing brackets. -/
def quoteMSSQLIdentifier (name : List Char) : List Char :=
  '[' :: escDouble ']' name ++ [']']

/-- `pgx.Identifier.Sanitize` quotes one identifier part exactly like the
SQLite quoter: double quotes, interior ones doubled. -/
def quotePostgresIdentifier (name : List Char) : List Char :=
  '"' :: escDouble '"' name ++ ['"']

/-- Parse the body of a quoted identifier delimited by the closing
character `cd`: a doubled `cd` is a literal `cd`, a single `cd` terminates;
returns the decoded body and the remainder after the closing delimiter.
This is the reading any conforming SQL lexer gives the generated text. -/
def parseQuotedBody (cd : Char) : List Char → Option (List Char × List Char)
  | [] => none
  | c :: rest =>
    if c = cd then
      match rest with
      | c2 :: rest2 =>
        if c2 = cd then (parseQuotedBody cd rest2).map (fun p => (cd :: p.1, p.2))
        else some ([], rest)
      | [] => some ([], [])
    else (parseQuotedBody cd rest).map (fun p => (c :: p.1, p.2))

/-- Parse a full quoted identifier: opening delimiter `od`, body, closing
delimiter `cd`. -/
def parseQuotedIdent (od cd : Char) (s : List Char) : Option (List Char × List Char) :=
  match s with
  | c :: rest => if c = od then parseQuotedBody cd rest else none
  | [] => none

/-!
Data model of the access layer (`internal/db/driver.go`).
-/

/-- Dynamically typed row values (`any` in Go).  The access layer never
inspects values; this small tagged union is enough to carry them. -/
inductive DBValue where
  | intV (n : Int) : DBValue
  | textV (s : List Char) : DBValue
  | boolV (b : Bool) : DBValue
  | nullV : DBValue
deriving DecidableEq, Repr

/-- A row or key/set argument: one iteration order of a Go
`map[string]any` (keys are distinct in a Go map). -/
abbrev GoRow := List (List Char × DBValue)

/-- `ColumnInfo` of `driver.go`. -/
structure ColumnInfo where
  name : List Char
  colType : List Char
  nullable : Bool
  isPK : Bool
deriving DecidableEq, Repr

/-- Byte-wise (equivalently code-point-wise) lexicographic order on
strings, the order used by Go `sort.Strings`. -/
def leCharList : List Char → List Char → Bool
  | [], _ => true
  | _ :: _, [] => false
  | x :: xs, y :: ys =>
    if x.val < y.val then true
    else if y.val < x.val then false
    else leCharList xs ys

/-- Insert into a sorted list of strings. -/
def insertSorted (x : List Char) : List (List Char) → List (List Char)
  | [] => [x]
  | y :: ys => if leCharList x y then x :: y :: ys else y :: insertSorted x ys

/-- Models `sort.Strings`: sort ascending (insertion sort; the result is
the unique sorted permutation, which is all the source relies on). -/
def sortStrings : List (List Char) → List (List Char)
  | [] => []
  | x :: xs => insertSorted x (sortStrings xs)

/-- Models `strings.Join(xs, ",")`. -/
def joinComma : List (List Char) → List Char
  | [] => []
  | [x] => x
  | x :: y :: rest => x ++ ',' :: joinComma (y :: rest)

/-- Join with an arbitrary separator (`strings.Join` / `joinQuoted`). -/
def joinSep (sep : List Char) : List (List Char) → List Char
  | [] => []
  | [x] => x
  | x :: y :: rest => x ++ sep ++ joinSep sep (y :: rest)

/-- Everything `UpdateRow` can fail with, one constructor per `fmt.Errorf`
site.  `keyMismatch` carries the two sorted column-name lists that the Go
error message formats (the provided key columns and the actual primary-key
columns). -/
inductive UpdateError where
  | emptyKey : UpdateError
  | emptySet : UpdateError
  | describeFailed (e : List Char) : UpdateError
  | noPrimaryKey (table : List Char) : UpdateError
  | keyMismatch (provided pk : List (List Char)) : UpdateError
  | execFailed (e : List Char) : UpdateError
  | rowNotFound : UpdateError
deriving DecidableEq, Repr

/-- Embeds `validatePKColumns` of `driver.go`.  `describe` is the outcome
of the `DescribeTable` round trip; `keyCols` are the column names of the
caller-supplied key map (distinct, in some iteration order).  Returns the
error, if any. -/
def validatePKColumns (describe : Except (List Char) (List ColumnInfo))
    (table : List Char) (keyCols : List (List Char)) : Option UpdateError :=
  match describe with
  | .error e => some (.describeFailed e)
  | .ok cols =>
    let pkCols := (cols.filter (fun c => c.isPK)).map (fun c => c.name)
    if pkCols = [] then some (.noPrimaryKey table)
    else
      let pkSorted := sortStrings pkCols
      let providedSorted := sortStrings keyCols
      if joinComma providedSorted ≠ joinComma pkSorted then
        some (.keyMismatch providedSorted pkSorted)
      else none

/-- Decimal rendering of a positional-parameter number. -/
def natChars (n : Nat) : List Char := (toString n).toList

/-- PostgreSQL positional marker `$n`. -/
def pgMarker (n : Nat) : List Char := '$' :: natChars n

/-- SQLite positional marker `?n`. -/
def sqliteMarker (n : Nat) : List Char := '?' :: natChars n

/-- SQL Server positional marker `@pn`. -/
def mssqlMarker (n : Nat) : List Char := '@' :: 'p' :: natChars n

/-- Numbered assignment clauses `quoted = marker(start+i+1)`, as built by
the SET/WHERE loops of each `UpdateRow`. -/
def assignClauses (quote : List Char → List Char) (marker : Nat → List Char)
    (start : Nat) (cols : List (List Char)) : List (List Char) :=
  cols.enum.map (fun ic => quote ic.2 ++ " = ".toList ++ marker (start + ic.1 + 1))

/-- MySQL assignment clauses: every marker is a bare `?`. -/
def assignClausesMySQL (cols : List (List Char)) : List (List Char) :=
  cols.map (fun c => quoteMySQLIdentifier c ++ " = ?".toList)

/-- `quoteMySQLTable`: `schema`.`table`, or just `table` when the schema is
empty. -/
def quoteMySQLTable (schema table : List Char) : List Char :=
  if schema = [] then quoteMySQLIdentifier table
  else quoteMySQLIdentifier schema ++ '.' :: quoteMySQLIdentifier table

/-- The UPDATE statement built by `PostgresDriver.UpdateRow`. -/
def buildUpdatePostgres (schema table : List Char) (setCols keyCols : List (List Char)) : List Char :=
  "UPDATE ".toList ++ quotePostgresIdentifier schema ++ '.' :: quotePostgresIdentifier table ++
  " SET ".toList ++ joinSep ", ".toList (assignClauses quotePostgresIdentifier pgMarker 0 setCols) ++
  " WHERE ".toList ++
  joinSep " AND ".toList (assignClauses quotePostgresIdentifier pgMarker setCols.length keyCols)

/-- The UPDATE statement built by `SQLiteDriver.UpdateRow`. -/
def buildUpdateSQLite (table : List Char) (setCols keyCols : List (List Char)) : List Char :=
  "UPDATE ".toList ++ quoteSQLiteIdentifier table ++
  " SET ".toList ++ joinSep ", ".toList (assignClauses quoteSQLiteIdentifier sqliteMarker 0 setCols) ++
  " WHERE ".toList ++
  joinSep " AND ".toList (assignClauses quoteSQLiteIdentifier sqliteMarker setCols.length keyCols)

/-- The UPDATE statement built by `SQLServerDriver.UpdateRow`. -/
def buildUpdateMSSQL (schema table : List Char) (setCols keyCols : List (List Char)) : List Char :=
  "UPDATE ".toList ++ quoteMSSQLIdentifier schema ++ '.' :: quoteMSSQLIdentifier table ++
  " SET ".toList ++ joinSep ", ".toList (assignClauses quoteMSSQLIdentifier mssqlMarker 0 setCols) ++
  " WHERE ".toList ++
  joinSep " AND ".toList (assignClauses quoteMSSQLIdentifier mssqlMarker setCols.length keyCols)

/-- The UPDATE statement built by `MySQLDriver.UpdateRow`. -/
def buildUpdateMySQL (schema table : List Char) (setCols keyCols : List (List Char)) : List Char :=
  "UPDATE ".toList ++ quoteMySQLTable schema table ++
  " SET ".toList ++ joinSep ", ".toList (assignClausesMySQL setCols) ++
  " WHERE ".toList ++ joinSep " AND ".toList (assignClausesMySQL keyCols)

/-- What one `UpdateRow` call did: the `(rowsAffected, err)` pair it
returned, plus the statement it sent to the backend (`none` when no
statement was built or executed). -/
structure UpdateOutcome where
  rowsAffected : Int
  err : Option UpdateError
  executed : Option (List Char)
deriving DecidableEq, Repr

/-- Shared tail of every `UpdateRow`: run the built statement, treat a
reported affected-row count of zero as the row-not-found error, otherwise
return the count. -/
def finishUpdate (exec : List Char → Except (List Char) Int) (sql : List Char) : UpdateOutcome :=
  match exec sql with
  | .error e => ⟨0, some (.execFailed e), some sql⟩
  | .ok n => if n = 0 then ⟨0, some .rowNotFound, some sql⟩ else ⟨n, none, some sql⟩

/-- Embeds `PostgresDriver.UpdateRow`.  `describe` is the `DescribeTable`
outcome; `exec` is the backend executing a statement, returning the
affected-row count (or the error from `Exec`/`RowsAffected`). -/
def updateRowPostgres (describe : Except (List Char) (List ColumnInfo))
    (exec : List Char → Except (List Char) Int)
    (schema table : List Char) (key set : GoRow) : UpdateOutcome :=
  let sch := if schema = [] then "public".toList else schema
  if key = [] then ⟨0, some .emptyKey, none⟩
  else if set = [] then ⟨0, some .emptySet, none⟩
  else
    match validatePKColumns describe table (key.map Prod.fst) with
    | some e => ⟨0, some e, none⟩
    | none =>
      finishUpdate exec (buildUpdatePostgres sch table (set.map Prod.fst) (key.map Prod.fst))

/-- Embeds `SQLiteDriver.UpdateRow` (the schema argument is ignored). -/
def updateRowSQLite (describe : Except (List Char) (List ColumnInfo))
    (exec : List Char → Except (List Char) Int)
    (table : List Char) (key set : GoRow) : UpdateOutcome :=
  if key = [] then ⟨0, some .emptyKey, none⟩
  else if set = [] then ⟨0, some .emptySet, none⟩
  else
    match validatePKColumns describe table (key.map Prod.fst) with
    | some e => ⟨0, some e, none⟩
    | none =>
      finishUpdate exec (buildUpdateSQLite table (set.map Prod.fst) (key.map Prod.fst))

/-- Embeds `SQLServerDriver.UpdateRow`. -/
def updateRowMSSQL (describe : Except (List Char) (List ColumnInfo))
    (exec : List Char → Except (List Char) Int)
    (schema table : List Char) (key set : GoRow) : UpdateOutcome :=
  let sch := if schema = [] then "dbo".toList else schema
  if key = [] then ⟨0, some .emptyKey, none⟩
  else if set = [] then ⟨0, some .emptySet, none⟩
  else
    match validatePKColumns describe table (key.map Prod.fst) with
    | some e => ⟨0, some e, none⟩
    | none =>
      finishUpdate exec (buildUpdateMSSQL sch table (set.map Prod.fst) (key.map Prod.fst))

/-- Embeds `MySQLDriver.UpdateRow`. -/
def updateRowMySQL (describe : Except (List Char) (List ColumnInfo))
    (exec : List Char → Except (List Char) Int)
    (schema table : List Char) (key set : GoRow) : UpdateOutcome :=
  if key = [] then ⟨0, some .emptyKey, none⟩
  else if set = [] then ⟨0, some .emptySet, none⟩
  else
    match validatePKColumns describe table (key.map Prod.fst) with
    | some e => ⟨0, some e, none⟩
    | none =>
      finishUpdate exec (buildUpdateMySQL schema table (set.map Prod.fst) (key.map Prod.fst))

/-!
InsertRow.
-/

/-- Everything `InsertRow` can fail with: the empty-row check, a failure
from `Query`/`Exec`, or a failure reading the returned row
(`rows.Values`/`rows.Scan`). -/
inductive InsertError where
  | noColumns : InsertError
  | execFailed (e : List Char) : InsertError
  | valuesFailed (e : List Char) : InsertError
deriving DecidableEq, Repr

/-- `makePlaceholders` of `postgres.go`: `$1, $2, …`. -/
def makePlaceholders (n : Nat) : List Char :=
  joinSep ", ".toList ((List.range n).map (fun i => pgMarker (i + 1)))

/-- `makeSQLitePlaceholders`: `?1, ?2, …`. -/
def makeSQLitePlaceholders (n : Nat) : List Char :=
  joinSep ", ".toList ((List.range n).map (fun i => sqliteMarker (i + 1)))

/-- `makeMSSQLPlaceholders`: `@p1, @p2, …`. -/
def makeMSSQLPlaceholders (n : Nat) : List Char :=
  joinSep ", ".toList ((List.range n).map (fun i => mssqlMarker (i + 1)))

/-- `makeMySQLPlaceholders`: `?, ?, …`. -/
def makeMySQLPlaceholders (n : Nat) : List Char :=
  joinSep ", ".toList ((List.range n).map (fun _ => ['?']))

/-- The INSERT statement built by `PostgresDriver.InsertRow`. -/
def buildInsertPostgres (schema table : List Char) (cols : List (List Char)) : List Char :=
  "INSERT INTO ".toList ++ quotePostgresIdentifier schema ++ '.' :: quotePostgresIdentifier table ++
  " (".toList ++ joinSep ", ".toList (cols.map quotePostgresIdentifier) ++ ") VALUES (".toList ++
  makePlaceholders cols.length ++ ") RETURNING *".toList

/-- The INSERT statement built by `SQLiteDriver.InsertRow`. -/
def buildInsertSQLite (table : List Char) (cols : List (List Char)) : List Char :=
  "INSERT INTO ".toList ++ quoteSQLiteIdentifier table ++
  " (".toList ++ joinSep ", ".toList (cols.map quoteSQLiteIdentifier) ++ ") VALUES (".toList ++
  makeSQLitePlaceholders cols.length ++ [')']

/-- The INSERT statement built by `SQLServerDriver.InsertRow`. -/
def buildInsertMSSQL (schema table : List Char) (cols : List (List Char)) : List Char :=
  "INSERT INTO ".toList ++ quoteMSSQLIdentifier schema ++ '.' :: quoteMSSQLIdentifier table ++
  " (".toList ++ joinSep ", ".toList (cols.map quoteMSSQLIdentifier) ++
  ") OUTPUT INSERTED.* VALUES (".toList ++ makeMSSQLPlaceholders cols.length ++ [')']

/-- The INSERT statement built by `MySQLDriver.InsertRow`. -/
def buildInsertMySQL (schema table : List Char) (cols : List (List Char)) : List Char :=
  "INSERT INTO ".toList ++ quoteMySQLTable schema table ++
  " (".toList ++ joinSep ", ".toList (cols.map quoteMySQLIdentifier) ++ ") VALUES (".toList ++
  makeMySQLPlaceholders cols.length ++ [')']

/-- What `rows.Next()` on the read-back of an INSERT can yield.
`noRow iterErr` is `rows.Next() = false`: `iterErr` is the value
`rows.Err()` would report (`none` for a clean end of the result set,
`some e` when iteration stopped because of an error `e`).  `row vals` is a
first row, with `vals` the outcome of reading it
(`rows.Values`/`rows.Scan`). -/
inductive FirstRowOutcome where
  | noRow (iterErr : Option (List Char)) : FirstRowOutcome
  | row (vals : Except (List Char) (List DBValue)) : FirstRowOutcome

/-- Outcome of a `Query` round trip that reads back at most one row:
`.error` is a `QueryContext` failure, `.ok` carries the `rows.Next()`
outcome. -/
abbrev QueryFirstRow := Except (List Char) FirstRowOutcome

/-- Embeds `PostgresDriver.InsertRow`.  Returns the `(insertedID, err)`
pair and the statement sent to the backend, if any.  Note the source
returns `nil, nil` whenever `rows.Next()` is false, without consulting
`rows.Err()`: a post-execution iteration failure (`noRow (some e)`) is
discarded and reported as a successful insert with a null id. -/
def insertRowPostgres (query : List Char → QueryFirstRow)
    (schema table : List Char) (row : GoRow) :
    Except InsertError (Option DBValue) × Option (List Char) :=
  let sch := if schema = [] then "public".toList else schema
  if row = [] then (.error .noColumns, none)
  else
    let sql := buildInsertPostgres sch table (row.map Prod.fst)
    match query sql with
    | .error e => (.error (.execFailed e), some sql)
    | .ok (.noRow _) => (.ok none, some sql)
    | .ok (.row (.error e)) => (.error (.valuesFailed e), some sql)
    | .ok (.row (.ok vals)) => (.ok vals.head?, some sql)

/-- Embeds `SQLServerDriver.InsertRow` (same shape as the PostgreSQL one:
query, read back the first OUTPUT row, return its first column).  As in
the PostgreSQL variant, `rows.Next() = false` yields `nil, nil` with
`rows.Err()` never consulted, so `noRow (some e)` is discarded. -/
def insertRowMSSQL (query : List Char → QueryFirstRow)
    (schema table : List Char) (row : GoRow) :
    Except InsertError (Option DBValue) × Option (List Char) :=
  let sch := if schema = [] then "dbo".toList else schema
  if row = [] then (.error .noColumns, none)
  else
    let sql := buildInsertMSSQL sch table (row.map Prod.fst)
    match query sql with
    | .error e => (.error (.execFailed e), some sql)
    | .ok (.noRow _) => (.ok none, some sql)
    | .ok (.row (.error e)) => (.error (.valuesFailed e), some sql)
    | .ok (.row (.ok vals)) => (.ok vals.head?, some sql)

/-- Outcome of an `Exec` round trip for the SQLite/MySQL inserts:
`.error` is an `ExecContext` failure; `.ok (id, lastErr)` is the pair the
subsequent `result.LastInsertId()` call returns. -/
abbrev ExecLastId := Except (List Char) (Int × Option (List Char))

/-- Embeds `SQLiteDriver.InsertRow`.  Note `id, _ := result.LastInsertId()`
in the source: the error from `LastInsertId` is discarded. -/
def insertRowSQLite (exec : List Char → ExecLastId)
    (table : List Char) (row : GoRow) :
    Except InsertError (Option DBValue) × Option (List Char) :=
  if row = [] then (.error .noColumns, none)
  else
    let sql := buildInsertSQLite table (row.map Prod.fst)
    match exec sql with
    | .error e => (.error (.execFailed e), some sql)
    | .ok (id, _) => (.ok (if id > 0 then some (.intV id) else none), some sql)

/-- Embeds `MySQLDriver.InsertRow`.  Note the source returns `nil, nil`
when `result.LastInsertId()` reports an error: the failure is discarded
and the call succeeds with a null generated id. -/
def insertRowMySQL (exec : List Char → ExecLastId)
    (schema table : List Char) (row : GoRow) :
    Except InsertError (Option DBValue) × Option (List Char) :=
  if row = [] then (.error .noColumns, none)
  else
    let sql := buildInsertMySQL schema table (row.map Prod.fst)
    match exec sql with
    | .error e => (.error (.execFailed e), some sql)
    | .ok (id, lastErr) =>
      match lastErr with
      | some _ => (.ok none, some sql)
      | none => (.ok (if id > 0 then some (.intV id) else none), some sql)

/-!
Connection manager (`internal/db/manager.go`).
-/

/-- Everything `Manager.Driver` can fail with; each constructor carries
exactly the data its `fmt.Errorf` message interpolates.  The sanitized
connection failure names only the connection id and the configured backend
type — the raw construction error is logged, never returned. -/
inductive ManagerError where
  | unknownConnection (id : List Char) : ManagerError
  | unsupportedType (typ id : List Char) : ManagerError
  | connectFailed (id typ : List Char) : ManagerError
deriving DecidableEq, Repr

/-- The four backend type tags dispatched by the `switch` in
`Manager.Driver`. -/
def knownBackendType (typ : List Char) : Bool :=
  typ = "postgres".toList || typ = "sqlserver".toList ||
  typ = "sqlite".toList || typ = "mysql".toList

/-- Embeds the return value of `Manager.Driver` for one call.  `cfg` maps a
connection id to its configured `(type, uri)` pair; `cache` is the state of
`m.drivers` at the locked read; `construct` models the backend constructors
(`NewPostgresDriver` and friends), dispatched on the type tag.  On a
construction failure the raw error is recorded in the server log only; the
caller receives the sanitized `connectFailed` error built from the
connection id and the backend type alone. -/
def managerDriver {D : Type} (cfg : List Char → Option (List Char × List Char))
    (cache : List Char → Option D)
    (construct : List Char → List Char → Except (List Char) D)
    (id : List Char) : Except ManagerError D :=
  match cfg id with
  | none => .error (.unknownConnection id)
  | some (typ, uri) =>
    match cache id with
    | some d => .ok d
    | none =>
      if knownBackendType typ then
        match construct typ uri with
        | .error _ => .error (.connectFailed id typ)
        | .ok d => .ok d
      else .error (.unsupportedType typ id)

/-- Embeds `Manager.Close`: under the lock, every cached driver's `Close`
is called with its error discarded (`_ = d.Close()`), the entry is
deleted, and nil is returned.  `closeD` models each driver's `Close`
outcome (`none` success, `some e` failure).  Returns the emptied cache,
the error returned to the caller (always `none`), and the list of
per-driver `Close` outcomes that were produced and discarded. -/
def managerClose {D : Type} (closeD : D → Option (List Char))
    (drivers : List (List Char × D)) :
    List (List Char × D) × Option (List Char) × List (Option (List Char)) :=
  ([], none, drivers.map (fun p => closeD p.2))

/-- Association-list lookup, modelling a read of the `m.drivers` map. -/
def lookupCache {D : Type} (cache : List (List Char × D)) (id : List Char) : Option D :=
  match cache with
  | [] => none
  | (k, d) :: rest => if k = id then some d else lookupCache rest id

/-- The install-time critical section of `Manager.Driver`, executed under
the lock after a driver has been constructed outside it: re-check the
cache; if another caller installed first, return the existing instance and
close the duplicate; otherwise install and return the new driver.  Result:
(new cache, driver returned to the caller, driver closed if any). -/
def installDriver {D : Type} (cache : List (List Char × D)) (id : List Char) (d : D) :
    List (List Char × D) × D × Option D :=
  match lookupCache cache id with
  | some existing => (cache, existing, some d)
  | none => ((id, d) :: cache, d, none)

/-- A serialized interleaving of the install critical sections of several
concurrent first-time callers for the same id (the mutex totally orders
them; `ds` lists each callers constructed driver in lock-acquisition
order).  Returns the final cache and, per caller, the driver returned to
it and the driver it closed, if any. -/
def runInstalls {D : Type} (cache : List (List Char × D)) (id : List Char) :
    List D → List (List Char × D) × List (D × Option D)
  | [] => (cache, [])
  | d :: ds =>
    let step := installDriver cache id d
    let rest := runInstalls step.1 id ds
    (rest.1, (step.2.1, step.2.2) :: rest.2)

/-!
Helper lemmas.
-/

theorem length_dropWhile_le' (p : Char → Bool) :
    ∀ l : List Char, (l.dropWhile p).length ≤ l.length := by
  intro l
  induction l with
  | nil => simp
  | cons a t ih =>
    by_cases h : p a
    · simp only [List.dropWhile, h]
      exact Nat.le_succ_of_le ih
    · simp only [List.dropWhile, h]
      simp

theorem lookupCache_cons_self {D : Type} (cache : List (List Char × D)) (id : List Char) (d : D) :
    lookupCache ((id, d) :: cache) id = some d := by
  simp [lookupCache]

theorem runInstalls_of_cached {D : Type} (id : List Char) (d : D) :
    ∀ (ds : List D) (cache : List (List Char × D)), lookupCache cache id = some d →
      runInstalls cache id ds = (cache, ds.map (fun x => (d, some x))) := by
  intro ds
  induction ds with
  | nil => intro cache _; rfl
  | cons x xs ih =>
    intro cache h
    simp [runInstalls, installDriver, h, ih cache h]

/-!
Claim theorems.
-/

/-- C4: for any serialized interleaving of concurrent first-time installs
for one connection identifier, the first installer wins: exactly its driver
is added to the cache (once, with the rest of the cache untouched), every
caller receives that same single instance, the winner closes nothing, and
every loser closes exactly its own duplicate driver immediately. -/
theorem managerInstall_single_winner {D : Type} (cache : List (List Char × D))
    (id : List Char) (d : D) (ds : List D) (h : lookupCache cache id = none) :
    runInstalls cache id (d :: ds) =
      ((id, d) :: cache, (d, none) :: ds.map (fun x => (d, some x))) ∧
    lookupCache ((id, d) :: cache) id = some d := by
  constructor
  · simp [runInstalls, installDriver, h,
      runInstalls_of_cached id d ds ((id, d) :: cache) (lookupCache_cons_self cache id d)]
  · exact lookupCache_cons_self cache id d

/-- C4 witness: three concurrent first-time callers for the identifier
`conn`, constructing drivers 1, 2 and 3 in lock order. -/
theorem managerInstall_single_winner_witness :
    runInstalls ([] : List (List Char × Nat)) "conn".toList [1, 2, 3] =
      ([("conn".toList, 1)], [(1, none), (1, some 2), (1, some 3)]) ∧
    lookupCache [("conn".toList, 1)] "conn".toList = some 1 :=
  managerInstall_single_winner [] "conn".toList 1 [2, 3] rfl

/-- C3: when constructing a driver for a known connection id fails, the
caller receives the sanitized error built only from the connection id and
the configured backend type; two runs whose configurations differ only in
the URI mapped to that id (and whose constructions both fail) return the
very same error value. -/
theorem managerDriver_sanitized_error {D : Type}
    (cfg₁ cfg₂ : List Char → Option (List Char × List Char))
    (cache : List Char → Option D)
    (construct : List Char → List Char → Except (List Char) D)
    (id typ u₁ u₂ e₁ e₂ : List Char)
    (h₁ : cfg₁ id = some (typ, u₁)) (h₂ : cfg₂ id = some (typ, u₂))
    (hcache : cache id = none) (hk : knownBackendType typ = true)
    (hc₁ : construct typ u₁ = .error e₁) (hc₂ : construct typ u₂ = .error e₂) :
    managerDriver cfg₁ cache construct id = .error (.connectFailed id typ) ∧
    managerDriver cfg₁ cache construct id = managerDriver cfg₂ cache construct id := by
  constructor
  · simp [managerDriver, h₁, hcache, hk, hc₁]
  · simp [managerDriver, h₁, h₂, hcache, hk, hc₁, hc₂]

/-- C3 witness: two configurations mapping `conn` to the postgres type
with different URIs; construction fails in both runs; the returned errors
are identical and sanitized. -/
theorem managerDriver_sanitized_error_witness :
    managerDriver (D := Unit)
        (fun x => if x = "conn".toList then some ("postgres".toList, "uriA".toList) else none)
        (fun _ => none) (fun _ _ => .error "dial failed: uri".toList) "conn".toList =
      .error (.connectFailed "conn".toList "postgres".toList) ∧
    managerDriver (D := Unit)
        (fun x => if x = "conn".toList then some ("postgres".toList, "uriA".toList) else none)
        (fun _ => none) (fun _ _ => .error "dial failed: uri".toList) "conn".toList =
      managerDriver (D := Unit)
        (fun x => if x = "conn".toList then some ("postgres".toList, "uriB".toList) else none)
        (fun _ => none) (fun _ _ => .error "dial failed: uri".toList) "conn".toList :=
  managerDriver_sanitized_error
    (fun x => if x = "conn".toList then some ("postgres".toList, "uriA".toList) else none)
    (fun x => if x = "conn".toList then some ("postgres".toList, "uriB".toList) else none)
    (fun _ => none) (fun _ _ => .error "dial failed: uri".toList)
    "conn".toList "postgres".toList "uriA".toList "uriB".toList
    "dial failed: uri".toList "dial failed: uri".toList
    (by decide) (by decide) rfl (by decide) rfl rfl

/-- C8: on every backend, `InsertRow` with an empty row map fails with the
no-columns error and sends no statement to the backend. -/
theorem insertRow_empty_row_no_columns :
    (∀ q schema table, insertRowPostgres q schema table [] = (.error .noColumns, none)) ∧
    (∀ q schema table, insertRowMSSQL q schema table [] = (.error .noColumns, none)) ∧
    (∀ e table, insertRowSQLite e table [] = (.error .noColumns, none)) ∧
    (∀ e schema table, insertRowMySQL e schema table [] = (.error .noColumns, none)) :=
  ⟨fun _ _ _ => rfl, fun _ _ _ => rfl, fun _ _ => rfl, fun _ _ _ => rfl⟩

/-- C9: on every backend, `UpdateRow` with an empty key map (or, for a
non-empty key, an empty set map) fails immediately with the corresponding
error constructor (source messages `key must contain at least one column` /
`set must contain at least one column`), with rowsAffected 0, before the
`DescribeTable` lookup and without executing any statement — the result is
the same for every describe outcome and every backend behaviour, and the
executed-statement component is `none`. -/
theorem updateRow_empty_key_or_set :
    (∀ d e schema table set, updateRowPostgres d e schema table [] set = ⟨0, some .emptyKey, none⟩) ∧
    (∀ d e schema table c v kr,
      updateRowPostgres d e schema table ((c, v) :: kr) [] = ⟨0, some .emptySet, none⟩) ∧
    (∀ d e table set, updateRowSQLite d e table [] set = ⟨0, some .emptyKey, none⟩) ∧
    (∀ d e table c v kr, updateRowSQLite d e table ((c, v) :: kr) [] = ⟨0, some .emptySet, none⟩) ∧
    (∀ d e schema table set, updateRowMSSQL d e schema table [] set = ⟨0, some .emptyKey, none⟩) ∧
    (∀ d e schema table c v kr,
      updateRowMSSQL d e schema table ((c, v) :: kr) [] = ⟨0, some .emptySet, none⟩) ∧
    (∀ d e schema table set, updateRowMySQL d e schema table [] set = ⟨0, some .emptyKey, none⟩) ∧
    (∀ d e schema table c v kr,
      updateRowMySQL d e schema table ((c, v) :: kr) [] = ⟨0, some .emptySet, none⟩) :=
  ⟨fun _ _ _ _ _ => rfl, fun _ _ _ _ _ _ _ => rfl,
   fun _ _ _ _ => rfl, fun _ _ _ _ _ _ => rfl,
   fun _ _ _ _ _ => rfl, fun _ _ _ _ _ _ _ => rfl,
   fun _ _ _ _ _ => rfl, fun _ _ _ _ _ _ _ => rfl⟩

theorem parseQuotedBody_escDouble (cd : Char) (name : List Char) :
    parseQuotedBody cd (escDouble cd name ++ [cd]) = some (name, []) := by
  induction name with
  | nil => simp [escDouble, parseQuotedBody]
  | cons c rest ih =>
    by_cases h : c = cd
    · subst h
      simp [escDouble, parseQuotedBody, ih]
    · simp only [escDouble, if_neg h]
      rw [parseQuotedBody.eq_def]
      simp [h, ih]

/-- C10: each dialect quoting helper emits a correctly delimited
identifier for every input name: a SQL lexer reading the generated text
(doubled delimiter = literal delimiter, single delimiter = end of
identifier) consumes the whole output and recovers exactly the original
name — so no character of the name can terminate the identifier early. -/
theorem quoteIdentifier_round_trip :
    (∀ name, parseQuotedIdent '"' '"' (quoteSQLiteIdentifier name) = some (name, [])) ∧
    (∀ name, parseQuotedIdent backtickChar backtickChar (quoteMySQLIdentifier name) =
      some (name, [])) ∧
    (∀ name, parseQuotedIdent '[' ']' (quoteMSSQLIdentifier name) = some (name, [])) := by
  refine ⟨fun name => ?_, fun name => ?_, fun name => ?_⟩
  · simp [parseQuotedIdent, quoteSQLiteIdentifier, parseQuotedBody_escDouble]
  · simp [parseQuotedIdent, quoteMySQLIdentifier, parseQuotedBody_escDouble]
  · simp [parseQuotedIdent, quoteMSSQLIdentifier, parseQuotedBody_escDouble]

/-- C1: evaluation of `validatePKColumns` at the input exhibiting the
comma-join collision.  The table has the single primary-key column named
`a,b` and two non-PK columns `a` and `b`; the caller provides the key
columns `a` and `b`.  The sorted provided names differ from the sorted
primary-key names, and both `a` and `b` are non-PK columns of the table,
yet validation passes (because the source compares
`strings.Join(provided, ",")` with `strings.Join(pkCols, ",")`, which
identifies the two lists), and `UpdateRow` goes on to build and execute an
UPDATE whose WHERE clause uses non-primary-key columns — contradicting the
claim and the source doc comment of `validatePKColumns` (same column
names, no extra, no missing). -/
theorem validatePKColumns_comma_join_collision :
    validatePKColumns
        (.ok [⟨"a,b".toList, "int".toList, false, true⟩,
              ⟨"a".toList, "int".toList, true, false⟩,
              ⟨"b".toList, "int".toList, true, false⟩])
        "t".toList ["a".toList, "b".toList] = none ∧
    sortStrings ["a".toList, "b".toList] ≠ sortStrings ["a,b".toList] ∧
    (⟨"a".toList, "int".toList, true, false⟩ : ColumnInfo) ∈
      [⟨"a,b".toList, "int".toList, false, true⟩,
       ⟨"a".toList, "int".toList, true, false⟩,
       ⟨"b".toList, "int".toList, true, false⟩] ∧
    "a".toList ∉
      (([⟨"a,b".toList, "int".toList, false, true⟩,
         ⟨"a".toList, "int".toList, true, false⟩,
         ⟨"b".toList, "int".toList, true, false⟩] : List ColumnInfo).filter
          (fun c => c.isPK)).map (fun c => c.name) ∧
    (updateRowPostgres
        (.ok [⟨"a,b".toList, "int".toList, false, true⟩,
              ⟨"a".toList, "int".toList, true, false⟩,
              ⟨"b".toList, "int".toList, true, false⟩])
        (fun _ => .ok 1) [] "t".toList
        [("a".toList, .intV 1), ("b".toList, .intV 2)]
        [("x".toList, .intV 9)]).err = none ∧
    (updateRowPostgres
        (.ok [⟨"a,b".toList, "int".toList, false, true⟩,
              ⟨"a".toList, "int".toList, true, false⟩,
              ⟨"b".toList, "int".toList, true, false⟩])
        (fun _ => .ok 1) [] "t".toList
        [("a".toList, .intV 1), ("b".toList, .intV 2)]
        [("x".toList, .intV 9)]).executed.isSome = true := by
  refine ⟨by decide, by decide, by decide, by decide, by decide, by decide⟩

/-- C6: on every backend, once `UpdateRow` has passed validation and the
UPDATE statement executes without a backend error, a reported affected-row
count of zero yields the row-not-found error with rowsAffected 0, and a
nonzero reported count is returned as is with no error. -/
theorem updateRow_affected_row_semantics :
    (∀ d schema table key set (n : Int), key ≠ [] → set ≠ [] →
      validatePKColumns d table (key.map Prod.fst) = none →
      ((n = 0 →
        (updateRowPostgres d (fun _ => .ok n) schema table key set).err = some .rowNotFound ∧
        (updateRowPostgres d (fun _ => .ok n) schema table key set).rowsAffected = 0) ∧
       (n ≠ 0 →
        (updateRowPostgres d (fun _ => .ok n) schema table key set).err = none ∧
        (updateRowPostgres d (fun _ => .ok n) schema table key set).rowsAffected = n))) ∧
    (∀ d table key set (n : Int), key ≠ [] → set ≠ [] →
      validatePKColumns d table (key.map Prod.fst) = none →
      ((n = 0 →
        (updateRowSQLite d (fun _ => .ok n) table key set).err = some .rowNotFound ∧
        (updateRowSQLite d (fun _ => .ok n) table key set).rowsAffected = 0) ∧
       (n ≠ 0 →
        (updateRowSQLite d (fun _ => .ok n) table key set).err = none ∧
        (updateRowSQLite d (fun _ => .ok n) table key set).rowsAffected = n))) ∧
    (∀ d schema table key set (n : Int), key ≠ [] → set ≠ [] →
      validatePKColumns d table (key.map Prod.fst) = none →
      ((n = 0 →
        (updateRowMSSQL d (fun _ => .ok n) schema table key set).err = some .rowNotFound ∧
        (updateRowMSSQL d (fun _ => .ok n) schema table key set).rowsAffected = 0) ∧
       (n ≠ 0 →
        (updateRowMSSQL d (fun _ => .ok n) schema table key set).err = none ∧
        (updateRowMSSQL d (fun _ => .ok n) schema table key set).rowsAffected = n))) ∧
    (∀ d schema table key set (n : Int), key ≠ [] → set ≠ [] →
      validatePKColumns d table (key.map Prod.fst) = none →
      ((n = 0 →
        (updateRowMySQL d (fun _ => .ok n) schema table key set).err = some .rowNotFound ∧
        (updateRowMySQL d (fun _ => .ok n) schema table key set).rowsAffected = 0) ∧
       (n ≠ 0 →
        (updateRowMySQL d (fun _ => .ok n) schema table key set).err = none ∧
        (updateRowMySQL d (fun _ => .ok n) schema table key set).rowsAffected = n))) := by
  refine ⟨?_, ?_, ?_, ?_⟩
  · intro d schema table key set n hk hs hv
    constructor
    · intro hn; subst hn; simp [updateRowPostgres, hk, hs, hv, finishUpdate]
    · intro hn; simp [updateRowPostgres, hk, hs, hv, finishUpdate, hn]
  · intro d table key set n hk hs hv
    constructor
    · intro hn; subst hn; simp [updateRowSQLite, hk, hs, hv, finishUpdate]
    · intro hn; simp [updateRowSQLite, hk, hs, hv, finishUpdate, hn]
  · intro d schema table key set n hk hs hv
    constructor
    · intro hn; subst hn; simp [updateRowMSSQL, hk, hs, hv, finishUpdate]
    · intro hn; simp [updateRowMSSQL, hk, hs, hv, finishUpdate, hn]
  · intro d schema table key set n hk hs hv
    constructor
    · intro hn; subst hn; simp [updateRowMySQL, hk, hs, hv, finishUpdate]
    · intro hn; simp [updateRowMySQL, hk, hs, hv, finishUpdate, hn]

/-- C6 witness: a table with the single primary key `id`, a matching key
map, and a backend reporting zero affected rows. -/
theorem updateRow_affected_row_semantics_witness :
    (updateRowPostgres (.ok [⟨"id".toList, "int".toList, false, true⟩]) (fun _ => .ok 0)
      [] "t".toList [("id".toList, .intV 1)] [("x".toList, .intV 2)]).err =
      some .rowNotFound ∧
    (updateRowPostgres (.ok [⟨"id".toList, "int".toList, false, true⟩]) (fun _ => .ok 0)
      [] "t".toList [("id".toList, .intV 1)] [("x".toList, .intV 2)]).rowsAffected = 0 :=
  (updateRow_affected_row_semantics.1 (.ok [⟨"id".toList, "int".toList, false, true⟩])
    [] "t".toList [("id".toList, .intV 1)] [("x".toList, .intV 2)] 0
    (by decide) (by decide) (by decide)).1 rfl

/-- C7 counterexample: the claim that every failure arising during an
operation is returned to the caller as an explicit error is false at
these concrete inputs.  `MySQLDriver.InsertRow` whose `LastInsertId` call
reports an error returns success with a null id (the source returns
`nil, nil`); `SQLiteDriver.InsertRow` discards the `LastInsertId` error
outright (`id, _ := result.LastInsertId()`); `PostgresDriver.InsertRow`
and `SQLServerDriver.InsertRow` report a successful insert with a null id
when iteration fails after execution (`rows.Next()` false with a non-nil
`rows.Err()` that is never consulted); and `Manager.Close` returns nil
after discarding a cached driver's failing `Close`. -/
theorem access_layer_swallowed_failures :
    (insertRowMySQL (fun _ => .ok (0, some "last insert id unsupported".toList)) []
      "t".toList [("a".toList, .nullV)]).1 = .ok none ∧
    (insertRowSQLite (fun _ => .ok (5, some "last insert id unsupported".toList))
      "t".toList [("a".toList, .nullV)]).1 = .ok (some (.intV 5)) ∧
    (insertRowPostgres (fun _ => .ok (.noRow (some "connection reset during read".toList)))
      [] "t".toList [("a".toList, .nullV)]).1 = .ok none ∧
    (insertRowMSSQL (fun _ => .ok (.noRow (some "connection reset during read".toList)))
      [] "t".toList [("a".toList, .nullV)]).1 = .ok none ∧
    managerClose (fun _ => some "close failed".toList) [("conn".toList, ())] =
      ([], none, [some "close failed".toList]) :=
  ⟨rfl, rfl, rfl, rfl, rfl⟩

/-- C7 (amended): every failure arising during a modelled operation is
returned to the caller as an explicit error — `Query`/`Exec` failures and
row read-back failures of every inserting backend propagate, a
`DescribeTable` failure inside `UpdateRow` propagates, and an `UpdateRow`
against a failing backend never returns success on any backend — except
at the discard sites present in the source: SQLite `InsertRow` ignores an
error from `LastInsertId`; MySQL `InsertRow` returns success with a null
id when `LastInsertId` fails; PostgreSQL and SQL Server `InsertRow`
report success with a null id whenever `rows.Next()` is false, a
post-execution iteration error (`rows.Err()`) included; and
`Manager.Close` discards every cached driver's `Close` error, empties the
cache and returns nil regardless. -/
theorem access_layer_failures_surface :
    (∀ e schema table c v r,
      (insertRowPostgres (fun _ => .error e) schema table ((c, v) :: r)).1 =
        .error (.execFailed e)) ∧
    (∀ e schema table c v r,
      (insertRowPostgres (fun _ => .ok (.row (.error e))) schema table ((c, v) :: r)).1 =
        .error (.valuesFailed e)) ∧
    (∀ ie schema table c v r,
      (insertRowPostgres (fun _ => .ok (.noRow ie)) schema table ((c, v) :: r)).1 =
        .ok none) ∧
    (∀ e schema table c v r,
      (insertRowMSSQL (fun _ => .error e) schema table ((c, v) :: r)).1 =
        .error (.execFailed e)) ∧
    (∀ e schema table c v r,
      (insertRowMSSQL (fun _ => .ok (.row (.error e))) schema table ((c, v) :: r)).1 =
        .error (.valuesFailed e)) ∧
    (∀ ie schema table c v r,
      (insertRowMSSQL (fun _ => .ok (.noRow ie)) schema table ((c, v) :: r)).1 =
        .ok none) ∧
    (∀ (D : Type) (closeD : D → Option (List Char)) (drivers : List (List Char × D)),
      (managerClose closeD drivers).1 = [] ∧ (managerClose closeD drivers).2.1 = none) ∧
    (∀ e table c v r,
      (insertRowSQLite (fun _ => .error e) table ((c, v) :: r)).1 = .error (.execFailed e)) ∧
    (∀ e schema table c v r,
      (insertRowMySQL (fun _ => .error e) schema table ((c, v) :: r)).1 =
        .error (.execFailed e)) ∧
    (∀ (id : Int) lerr table c v r,
      (insertRowSQLite (fun _ => .ok (id, some lerr)) table ((c, v) :: r)).1 =
        .ok (if id > 0 then some (.intV id) else none)) ∧
    (∀ (id : Int) lerr schema table c v r,
      (insertRowMySQL (fun _ => .ok (id, some lerr)) schema table ((c, v) :: r)).1 = .ok none) ∧
    (∀ e ex schema table kc kv kr sc sv sr,
      (updateRowPostgres (.error e) ex schema table ((kc, kv) :: kr) ((sc, sv) :: sr)).err =
        some (.describeFailed e)) ∧
    (∀ e ex table kc kv kr sc sv sr,
      (updateRowSQLite (.error e) ex table ((kc, kv) :: kr) ((sc, sv) :: sr)).err =
        some (.describeFailed e)) ∧
    (∀ e ex schema table kc kv kr sc sv sr,
      (updateRowMSSQL (.error e) ex schema table ((kc, kv) :: kr) ((sc, sv) :: sr)).err =
        some (.describeFailed e)) ∧
    (∀ e ex schema table kc kv kr sc sv sr,
      (updateRowMySQL (.error e) ex schema table ((kc, kv) :: kr) ((sc, sv) :: sr)).err =
        some (.describeFailed e)) ∧
    (∀ e d schema table key set,
      ((updateRowPostgres d (fun _ => .error e) schema table key set).err).isSome = true) ∧
    (∀ e d table key set,
      ((updateRowSQLite d (fun _ => .error e) table key set).err).isSome = true) ∧
    (∀ e d schema table key set,
      ((updateRowMSSQL d (fun _ => .error e) schema table key set).err).isSome = true) ∧
    (∀ e d schema table key set,
      ((updateRowMySQL d (fun _ => .error e) schema table key set).err).isSome = true) := by
  refine ⟨fun _ _ _ _ _ _ => rfl, fun _ _ _ _ _ _ => rfl, fun _ _ _ _ _ _ => rfl,
    fun _ _ _ _ _ _ => rfl, fun _ _ _ _ _ _ => rfl, fun _ _ _ _ _ _ => rfl,
    fun _ _ _ => ⟨rfl, rfl⟩,
    fun _ _ _ _ _ => rfl, fun _ _ _ _ _ _ => rfl,
    fun _ _ _ _ _ _ => rfl, fun _ _ _ _ _ _ _ => rfl,
    fun _ _ _ _ _ _ _ _ _ _ => rfl, fun _ _ _ _ _ _ _ _ _ => rfl,
    fun _ _ _ _ _ _ _ _ _ _ => rfl, fun _ _ _ _ _ _ _ _ _ _ => rfl,
    ?_, ?_, ?_, ?_⟩
  · intro e d schema table key set
    by_cases hk : key = []
    · simp [updateRowPostgres, hk]
    · by_cases hs : set = []
      · simp [updateRowPostgres, hk, hs]
      · cases hv : validatePKColumns d table (key.map Prod.fst) with
        | none => simp [updateRowPostgres, hk, hs, hv, finishUpdate]
        | some err => simp [updateRowPostgres, hk, hs, hv]
  · intro e d table key set
    by_cases hk : key = []
    · simp [updateRowSQLite, hk]
    · by_cases hs : set = []
      · simp [updateRowSQLite, hk, hs]
      · cases hv : validatePKColumns d table (key.map Prod.fst) with
        | none => simp [updateRowSQLite, hk, hs, hv, finishUpdate]
        | some err => simp [updateRowSQLite, hk, hs, hv]
  · intro e d schema table key set
    by_cases hk : key = []
    · simp [updateRowMSSQL, hk]
    · by_cases hs : set = []
      · simp [updateRowMSSQL, hk, hs]
      · cases hv : validatePKColumns d table (key.map Prod.fst) with
        | none => simp [updateRowMSSQL, hk, hs, hv, finishUpdate]
        | some err => simp [updateRowMSSQL, hk, hs, hv]
  · intro e d schema table key set
    by_cases hk : key = []
    · simp [updateRowMySQL, hk]
    · by_cases hs : set = []
      · simp [updateRowMySQL, hk, hs]
      · cases hv : validatePKColumns d table (key.map Prod.fst) with
        | none => simp [updateRowMySQL, hk, hs, hv, finishUpdate]
        | some err => simp [updateRowMySQL, hk, hs, hv]

theorem convertNumRun_eq_self_of_noDollarDigit (repl : List Char → List Char) :
    ∀ (fuel : Nat) (s : List Char), noDollarDigit s = true → convertNumRun repl fuel s = s := by
  intro fuel
  induction fuel with
  | zero => intro s _; rfl
  | succ f ih =>
    intro s h
    match s with
    | [] => rfl
    | c :: rest =>
      have hrest : noDollarDigit rest = true := by
        simp only [noDollarDigit, Bool.and_eq_true] at h
        exact h.2
      by_cases hc : c = '$'
      · subst hc
        have htw : rest.takeWhile Char.isDigit = [] := by
          cases rest with
          | nil => rfl
          | cons d t =>
            have hd : d.isDigit = false := by
              simp only [noDollarDigit, Bool.and_eq_true, Bool.or_eq_true] at h
              rcases h.1 with h1 | h1
              · simp at h1
              · simp only [Bool.not_eq_true'] at h1
                exact h1
            simp [List.takeWhile, hd]
        simp [convertNumRun, htw, ih rest hrest]
      · simp [convertNumRun, hc, ih rest hrest]

theorem convertNumRun_head_digit (repl : List Char → List Char)
    (h₁ : ∀ ds, repl ds ≠ [])
    (h₂ : ∀ ds d t, repl ds = d :: t → d.isDigit = false) :
    ∀ (fuel : Nat) (s : List Char) (d : Char) (t : List Char),
      convertNumRun repl fuel s = d :: t → d.isDigit = true → ∃ u, s = d :: u := by
  intro fuel s d t hout hdig
  match fuel, s with
  | 0, s => exact ⟨t, hout⟩
  | f + 1, [] => simp [convertNumRun] at hout
  | f + 1, c :: rest =>
    by_cases hcond : c = '$' ∧ rest.takeWhile Char.isDigit ≠ []
    · exfalso
      rw [convertNumRun.eq_def] at hout
      simp only [if_pos hcond] at hout
      rcases hr : repl (rest.takeWhile Char.isDigit) with _ | ⟨rh, rt⟩
      · exact h₁ _ hr
      · rw [hr] at hout
        simp only [List.cons_append] at hout
        have : rh = d := (List.cons.injEq _ _ _ _ ▸ hout).1
        rw [← this] at hdig
        rw [h₂ _ _ _ hr] at hdig
        exact Bool.false_ne_true hdig
    · rw [convertNumRun.eq_def] at hout
      simp only [if_neg hcond] at hout
      have : c = d := (List.cons.injEq _ _ _ _ ▸ hout).1
      exact ⟨rest, by rw [this]⟩

theorem noDollarDigit_append (A B : List Char) (hA : '$' ∉ A) (hB : noDollarDigit B = true) :
    noDollarDigit (A ++ B) = true := by
  induction A with
  | nil => simpa
  | cons a A ih =>
    have ha : ¬(a = '$') := fun h => hA (by rw [h]; exact List.mem_cons_self _ _)
    have hA' : '$' ∉ A := fun h => hA (List.mem_cons_of_mem a h)
    have hne : (a == '$') = false := by
      simp [ha]
    simp [noDollarDigit, hne, ih hA']

theorem convertNumRun_noDollarDigit (repl : List Char → List Char)
    (h₁ : ∀ ds, repl ds ≠ [])
    (h₂ : ∀ ds d t, repl ds = d :: t → d.isDigit = false)
    (h₃ : ∀ ds, (∀ c ∈ ds, c.isDigit = true) → '$' ∉ repl ds) :
    ∀ (fuel : Nat) (s : List Char), s.length ≤ fuel →
      noDollarDigit (convertNumRun repl fuel s) = true := by
  intro fuel
  induction fuel with
  | zero =>
    intro s hlen
    have : s = [] := List.eq_nil_of_length_eq_zero (Nat.le_zero.mp hlen)
    subst this; rfl
  | succ f ih =>
    intro s hlen
    match s with
    | [] => rfl
    | c :: rest =>
      have hlenr : rest.length ≤ f := Nat.succ_le_succ_iff.mp hlen
      by_cases hcond : c = '$' ∧ rest.takeWhile Char.isDigit ≠ []
      · rw [convertNumRun.eq_def]
        simp only [if_pos hcond]
        have hds : ∀ x ∈ rest.takeWhile Char.isDigit, x.isDigit = true :=
          fun x hx => List.mem_takeWhile_imp hx
        have hlend : (rest.dropWhile Char.isDigit).length ≤ f :=
          le_trans (length_dropWhile_le' _ rest) hlenr
        exact noDollarDigit_append _ _ (h₃ _ hds) (ih _ hlend)
      · rw [convertNumRun.eq_def]
        simp only [if_neg hcond]
        by_cases hc : c = '$'
        · subst hc
          have htw : rest.takeWhile Char.isDigit = [] := by
            rcases not_and.mp hcond rfl with h
            exact not_not.mp h
          cases hout : convertNumRun repl f rest with
          | nil => simp [noDollarDigit]
          | cons d t =>
            have hd : d.isDigit = false := by
              by_contra hdig
              have hdig' : d.isDigit = true := by
                revert hdig; cases d.isDigit <;> simp
              obtain ⟨u, hu⟩ := convertNumRun_head_digit repl h₁ h₂ f rest d t hout hdig'
              rw [hu] at htw
              simp [List.takeWhile, hdig'] at htw
            have hrest' : noDollarDigit (d :: t) = true := hout ▸ ih rest hlenr
            simp [noDollarDigit, hd] at hrest' ⊢
            exact hrest'
        · have hne : (c == '$') = false := by simp [hc]
          have hrest' : noDollarDigit (convertNumRun repl f rest) = true := ih rest hlenr
          simp [noDollarDigit, hne, hrest']

theorem replaceDollarMarkers_idem (repl : List Char → List Char)
    (h₁ : ∀ ds, repl ds ≠ [])
    (h₂ : ∀ ds d t, repl ds = d :: t → d.isDigit = false)
    (h₃ : ∀ ds, (∀ c ∈ ds, c.isDigit = true) → '$' ∉ repl ds)
    (s : List Char) :
    replaceDollarMarkers repl (replaceDollarMarkers repl s) = replaceDollarMarkers repl s :=
  convertNumRun_eq_self_of_noDollarDigit repl _ _
    (convertNumRun_noDollarDigit repl h₁ h₂ h₃ s.length s (le_refl _))

/-- C5: each dialect translation of canonical `$n` placeholders behaves as
specified on the driver test vectors (SQLite `$n` to `?n`, SQL Server `$n`
to `@pn`, MySQL every marker to a bare `?` with left-to-right order
preserved, text without markers untouched), the PostgreSQL driver sends
its query text unchanged, and every conversion is idempotent on all
inputs. -/
theorem placeholder_translation_spec :
    convertPlaceholdersToSQLite "$1".toList = "?1".toList ∧
    convertPlaceholdersToMSSQL "SELECT * FROM t WHERE a = $1".toList =
      "SELECT * FROM t WHERE a = @p1".toList ∧
    convertPlaceholdersToMSSQL "$1 AND $2".toList = "@p1 AND @p2".toList ∧
    convertPlaceholdersToMSSQL "$10".toList = "@p10".toList ∧
    convertPlaceholdersToMSSQL "no placeholders".toList = "no placeholders".toList ∧
    convertPlaceholdersToMySQL "SELECT * FROM t WHERE a = $1".toList =
      "SELECT * FROM t WHERE a = ?".toList ∧
    convertPlaceholdersToMySQL "$1 AND $2".toList = "? AND ?".toList ∧
    convertPlaceholdersToMySQL "$10".toList = "?".toList ∧
    convertPlaceholdersToMySQL "no placeholders".toList = "no placeholders".toList ∧
    (∀ s, postgresQueryText s = s) ∧
    (∀ s, convertPlaceholdersToSQLite (convertPlaceholdersToSQLite s) =
      convertPlaceholdersToSQLite s) ∧
    (∀ s, convertPlaceholdersToMSSQL (convertPlaceholdersToMSSQL s) =
      convertPlaceholdersToMSSQL s) ∧
    (∀ s, convertPlaceholdersToMySQL (convertPlaceholdersToMySQL s) =
      convertPlaceholdersToMySQL s) := by
  refine ⟨by decide, by decide, by decide, by decide, by decide, by decide, by decide,
    by decide, by decide, fun _ => rfl, fun s => ?_, fun s => ?_, fun s => ?_⟩
  · exact replaceDollarMarkers_idem _
      (fun ds => List.cons_ne_nil _ _)
      (fun ds d t h => by cases h; decide)
      (fun ds hds hmem => by
        rcases List.mem_cons.mp hmem with h | h
        · simp at h
        · have := hds _ h; simp at this) s
  · exact replaceDollarMarkers_idem _
      (fun ds => List.cons_ne_nil _ _)
      (fun ds d t h => by cases h; decide)
      (fun ds hds hmem => by
        rcases List.mem_cons.mp hmem with h | h
        · simp at h
        · rcases List.mem_cons.mp h with h | h
          · simp at h
          · have := hds _ h; simp at this) s
  · exact replaceDollarMarkers_idem _
      (fun ds => List.cons_ne_nil _ _)
      (fun ds d t h => by cases h; decide)
      (fun ds hds hmem => by
        rcases List.mem_cons.mp hmem with h | h
        · simp at h
        · simp at h) s

theorem matchKeywordCI_iff : ∀ (kw s rest : List Char),
    matchKeywordCI kw s = some rest ↔ ∃ mid, s = mid ++ rest ∧ mid.map Char.toUpper = kw := by
  intro kw
  induction kw with
  | nil =>
    intro s rest
    constructor
    · intro h
      simp only [matchKeywordCI, Option.some.injEq] at h
      exact ⟨[], by simp [h], rfl⟩
    · rintro ⟨mid, hs, hm⟩
      have : mid = [] := List.map_eq_nil_iff.mp hm
      subst this
      simp only [List.nil_append] at hs
      simp [matchKeywordCI, hs]
  | cons k ks ih =>
    intro s rest
    cases s with
    | nil =>
      constructor
      · intro h; simp [matchKeywordCI] at h
      · rintro ⟨mid, hs, hm⟩
        cases mid with
        | nil => simp at hm
        | cons a b => simp at hs
    | cons c cs =>
      constructor
      · intro h
        by_cases hc : Char.toUpper c = k
        · simp only [matchKeywordCI, if_pos hc] at h
          obtain ⟨mid, hcs, hm⟩ := (ih cs rest).mp h
          exact ⟨c :: mid, by simp [hcs], by simp [hm, hc]⟩
        · simp [matchKeywordCI, hc] at h
      · rintro ⟨mid, hs, hm⟩
        cases mid with
        | nil => simp at hm
        | cons a mid2 =>
          simp only [List.cons_append, List.cons.injEq] at hs
          simp only [List.map_cons, List.cons.injEq] at hm
          have hk : Char.toUpper c = k := by rw [hs.1]; exact hm.1
          simp only [matchKeywordCI, if_pos hk]
          exact (ih cs rest).mpr ⟨mid2, hs.2, hm.2⟩

theorem keywordAt_iff (kw s : List Char) :
    keywordAt kw s = true ↔
      ∃ mid post, s = mid ++ post ∧ mid.map Char.toUpper = kw ∧ boundaryRightB post = true := by
  unfold keywordAt
  cases h : matchKeywordCI kw s with
  | none =>
    constructor
    · intro hf; exact absurd hf (by simp)
    · rintro ⟨mid, post, hs, hm, hb⟩
      have h2 := (matchKeywordCI_iff kw s post).mpr ⟨mid, hs, hm⟩
      rw [h] at h2
      exact Option.noConfusion h2
  | some rest =>
    constructor
    · intro hb
      obtain ⟨mid, hs, hm⟩ := (matchKeywordCI_iff kw s rest).mp h
      exact ⟨mid, rest, hs, hm, hb⟩
    · rintro ⟨mid, post, hs, hm, hb⟩
      have h2 := (matchKeywordCI_iff kw s post).mpr ⟨mid, hs, hm⟩
      rw [h] at h2
      cases h2
      exact hb

theorem getLast?_or_cons (c : Char) (pre : List Char) (prev : Option Char) :
    (c :: pre).getLast?.or prev = pre.getLast?.or (some c) := by
  cases pre with
  | nil => simp
  | cons p ps =>
    rw [List.getLast?_cons_cons]
    cases h : (p :: ps).getLast? with
    | none => exact absurd h (by simp)
    | some x => rfl

theorem scanForbidden_cons (prev : Option Char) (c : Char) (cs : List Char) :
    scanForbidden prev (c :: cs) =
      if boundaryLeftB prev then
        match findForbidden (c :: cs) with
        | some kw => some kw
        | none => scanForbidden (some c) cs
      else scanForbidden (some c) cs := rfl

theorem scanForbidden_sound : ∀ (s : List Char) (prev : Option Char) (kw : List Char),
    scanForbidden prev s = some kw →
    kw ∈ forbiddenSQLWords ∧ ∃ pre mid post, s = pre ++ mid ++ post ∧
      mid.map Char.toUpper = kw ∧ boundaryLeftB (pre.getLast?.or prev) = true ∧
      boundaryRightB post = true := by
  intro s
  induction s with
  | nil => intro prev kw h; simp [scanForbidden] at h
  | cons c cs ih =>
    intro prev kw h
    rw [scanForbidden_cons] at h
    by_cases hb : boundaryLeftB prev = true
    · rw [if_pos hb] at h
      cases hf : findForbidden (c :: cs) with
      | some kw2 =>
        rw [hf] at h
        injection h with h2
        rw [h2] at hf
        simp only [findForbidden] at hf
        have hmem : kw ∈ forbiddenSQLWords := List.mem_of_find?_eq_some hf
        have hat0 := List.find?_some hf
        have hat : keywordAt kw (c :: cs) = true := hat0
        obtain ⟨mid, post, hs, hm, hbr⟩ := (keywordAt_iff _ _).mp hat
        exact ⟨hmem, [], mid, post, by simpa using hs, hm, by simpa using hb, hbr⟩
      | none =>
        rw [hf] at h
        obtain ⟨hmem, pre, mid, post, hs, hm, hbl, hbr⟩ := ih (some c) kw h
        refine ⟨hmem, c :: pre, mid, post, by simp [hs], hm, ?_, hbr⟩
        rw [getLast?_or_cons]
        exact hbl
    · rw [if_neg hb] at h
      obtain ⟨hmem, pre, mid, post, hs, hm, hbl, hbr⟩ := ih (some c) kw h
      refine ⟨hmem, c :: pre, mid, post, by simp [hs], hm, ?_, hbr⟩
      rw [getLast?_or_cons]
      exact hbl

theorem scanForbidden_none : ∀ (s : List Char) (prev : Option Char),
    scanForbidden prev s = none →
    ∀ kw ∈ forbiddenSQLWords, ∀ pre mid post, s = pre ++ mid ++ post →
      mid.map Char.toUpper = kw → boundaryLeftB (pre.getLast?.or prev) = true →
      boundaryRightB post = true → False := by
  intro s
  induction s with
  | nil =>
    intro prev _ kw hkw pre mid post hs hm _ _
    have h1 : pre ++ mid = [] ∧ post = [] := List.append_eq_nil.mp hs.symm
    have h2 : mid = [] := (List.append_eq_nil.mp h1.1).2
    subst h2
    have : kw = [] := by simpa using hm.symm
    subst this
    exact absurd hkw (by decide)
  | cons c cs ih =>
    intro prev h kw hkw pre mid post hs hm hbl hbr
    rw [scanForbidden_cons] at h
    cases pre with
    | nil =>
      have hb : boundaryLeftB prev = true := by simpa using hbl
      rw [if_pos hb] at h
      cases hf : findForbidden (c :: cs) with
      | some kw2 => rw [hf] at h; exact Option.noConfusion h
      | none =>
        have hat : keywordAt kw (c :: cs) = true :=
          (keywordAt_iff _ _).mpr ⟨mid, post, by simpa using hs, hm, hbr⟩
        simp only [findForbidden] at hf
        exact List.find?_eq_none.mp hf kw hkw hat
    | cons p pre2 =>
      simp only [List.cons_append, List.cons.injEq, List.append_assoc] at hs
      have hcp : c = p := hs.1
      subst hcp
      have hcs : cs = pre2 ++ mid ++ post := by simpa using hs.2
      have hrec : scanForbidden (some c) cs = none := by
        by_cases hb : boundaryLeftB prev = true
        · rw [if_pos hb] at h
          cases hf : findForbidden (c :: cs) with
          | some kw2 => rw [hf] at h; exact Option.noConfusion h
          | none => rw [hf] at h; exact h
        · rw [if_neg hb] at h; exact h
      have hbl2 : boundaryLeftB (pre2.getLast?.or (some c)) = true := by
        rw [← getLast?_or_cons c pre2 prev]
        exact hbl
      exact ih (some c) hrec kw hkw pre2 mid post hcs hm hbl2 hbr

/-- C2: `ValidateReadOnlySQL` strips line and block comments (each replaced
by a space), trims whitespace, fails with the empty-statement error when
nothing remains, and otherwise fails with the not-read-only error naming
one of the thirteen forbidden keywords exactly when the remaining text
contains a forbidden keyword as a case-insensitive whole word (succeeding
otherwise); the listed concrete inputs behave as the spec states. -/
theorem validateReadOnlySQL_spec :
    (∀ s, (cleanedSQL s = [] → ValidateReadOnlySQL s = .emptyStatement) ∧
      (cleanedSQL s ≠ [] →
        (((∃ w, ValidateReadOnlySQL s = .notReadOnly w ∧ w ∈ forbiddenSQLWords) ↔
          ∃ kw ∈ forbiddenSQLWords, occursAsWord kw (cleanedSQL s)) ∧
         ((¬∃ kw ∈ forbiddenSQLWords, occursAsWord kw (cleanedSQL s)) →
           ValidateReadOnlySQL s = .ok)))) ∧
    ValidateReadOnlySQL "SELECT 1".toList = .ok ∧
    ValidateReadOnlySQL "  SELECT 1  ".toList = .ok ∧
    ValidateReadOnlySQL "-- c\nSELECT 1".toList = .ok ∧
    ValidateReadOnlySQL "/* c */ SELECT 1".toList = .ok ∧
    ValidateReadOnlySQL "WITH cte AS (SELECT 1) SELECT * FROM cte".toList = .ok ∧
    ValidateReadOnlySQL "INSERT INTO t VALUES (1)".toList = .notReadOnly "INSERT".toList ∧
    ValidateReadOnlySQL "SELECT 1; INSERT INTO t VALUES (1)".toList =
      .notReadOnly "INSERT".toList ∧
    ValidateReadOnlySQL "".toList = .emptyStatement ∧
    ValidateReadOnlySQL "-- c".toList = .emptyStatement := by
  refine ⟨fun s => ⟨fun h => by simp [ValidateReadOnlySQL, h], fun hne => ⟨⟨?_, ?_⟩, ?_⟩⟩,
    by decide, by decide, by decide, by decide, by decide, by decide, by decide,
    by decide, by decide⟩
  · rintro ⟨w, hw, hmem⟩
    have hscan : scanForbidden none (cleanedSQL s) = some w := by
      cases hsc : scanForbidden none (cleanedSQL s) with
      | none => simp [ValidateReadOnlySQL, hne, hsc] at hw
      | some w2 =>
        simp only [ValidateReadOnlySQL, if_neg hne, hsc, SQLCheck.notReadOnly.injEq] at hw
        rw [hw]
    obtain ⟨_, pre, mid, post, hsplit, hm, hbl, hbr⟩ :=
      scanForbidden_sound _ none w hscan
    exact ⟨w, hmem, pre, mid, post, hsplit, hm, by simpa using hbl, hbr⟩
  · rintro ⟨kw, hkw, pre, mid, post, hsplit, hm, hbl, hbr⟩
    cases hsc : scanForbidden none (cleanedSQL s) with
    | none =>
      exact absurd
        (scanForbidden_none _ none hsc kw hkw pre mid post hsplit hm (by simpa using hbl) hbr)
        not_false
    | some w =>
      exact ⟨w, by simp [ValidateReadOnlySQL, hne, hsc], (scanForbidden_sound _ none w hsc).1⟩
  · intro hno
    cases hsc : scanForbidden none (cleanedSQL s) with
    | none => simp [ValidateReadOnlySQL, hne, hsc]
    | some w =>
      obtain ⟨hmem, pre, mid, post, hsplit, hm, hbl, hbr⟩ := scanForbidden_sound _ none w hsc
      exact absurd ⟨w, hmem, pre, mid, post, hsplit, hm, by simpa using hbl, hbr⟩ hno

/-- C2 witness: the general equivalence applied at a concrete input with a
forbidden keyword. -/
theorem validateReadOnlySQL_spec_witness :
    ∃ kw ∈ forbiddenSQLWords, occursAsWord kw (cleanedSQL "DROP TABLE t".toList) :=
  ((validateReadOnlySQL_spec.1 "DROP TABLE t".toList).2 (by decide)).1.mp
    ⟨"DROP".toList, by decide, by decide⟩

end LocalDbMcp
